import Mathlib

/-
Verification of the instruction execution engine in `src/iroha/src/domain.rs`.
The domain entity, the flattened `DomainInstruction` union and the two
per-pair `Register` executors are embedded shallowly; the supporting entity
types and the world-state handle, which live outside the visible sources,
are modelled from the specification.  Rust `HashMap`s are embedded as
association lists with `mapLookup`, `mapContains` and `mapInsert` mirroring
`get/get_mut`, `contains_key` and `insert` (insert replaces the binding in
place when the key is present, appends otherwise; only the first binding of
a key is observable).  A `&mut WorldStateView` computation returning
`Result<(), String>` becomes a function from the pre-state to a `RunResult`
carrying the post-state, with a separate `fatal` outcome for `expect`
panics.
-/

namespace Iroha

/-- Domain names, `type Name = String` in the source. -/
abbrev Name := String

/-- Modelled from the spec: the Account-Id type is not in the visible
sources; per the data model an account is "identified by an Account-Id;
scoped to exactly one domain", so the Id carries the account's name and its
domain's name. -/
structure AccountId where
  name : String
  domain_name : String
deriving DecidableEq

/-- Modelled from the spec: the Asset-Id type is not in the visible
sources; per the data model "the Asset-Id carries a reference to both its
defining Account (owner) and its definition". -/
structure AssetId where
  definition_name : String
  account_id : AccountId
deriving DecidableEq

/-- Modelled from the spec: the Asset type is not in the visible sources;
it is "identified by an Asset-Id" and otherwise "treated as an opaque
value", here an opaque numeric payload so that distinct values may share an
Id. -/
structure Asset where
  id : AssetId
  value : Nat
deriving DecidableEq

/-- Lookup in an association list: the value of the first binding of the
key, mirroring `HashMap::get` / `get_mut`. -/
def mapLookup {κ α : Type} [DecidableEq κ] : List (κ × α) → κ → Option α
  | [], _ => none
  | p :: rest, k => if p.1 = k then some p.2 else mapLookup rest k

/-- Key membership in an association list, mirroring
`HashMap::contains_key`. -/
def mapContains {κ α : Type} [DecidableEq κ] (m : List (κ × α)) (k : κ) : Bool :=
  m.any fun p => decide (p.1 = k)

/-- Insertion into an association list, mirroring `HashMap::insert`: the
first binding of the key is replaced in place, and an absent key is bound
by a new final entry. -/
def mapInsert {κ α : Type} [DecidableEq κ] : List (κ × α) → κ → α → List (κ × α)
  | [], k, v => [(k, v)]
  | p :: rest, k, v => if p.1 = k then (k, v) :: rest else p :: mapInsert rest k v

/-- Modelled from the spec: the Account type is not in the visible sources;
per the data model an account is "identified by an Account-Id" and "owns a
mapping from Asset-Id to Asset (its own asset holdings)". -/
structure Account where
  id : AccountId
  assets : List (AssetId × Asset)
deriving DecidableEq

/-- `Domain` from `domain.rs`: a name, a map of accounts keyed by
Account-Id and a map of assets keyed by Asset-Id. -/
structure Domain where
  name : Name
  accounts : List (AccountId × Account)
  assets : List (AssetId × Asset)
deriving DecidableEq

/-- `Domain::new` from `domain.rs`: a detached domain with the given name
and empty maps. -/
def Domain.new (name : Name) : Domain :=
  { name := name, accounts := [], assets := [] }

/-- Modelled from the spec: the world-state container is not in the visible
sources; it is "the mutable container of all domains", queried through
`domain(id: DomainName) -> Option<&mut Domain>`. -/
structure WorldStateView where
  domains : List (Name × Domain)
deriving DecidableEq

/-- The `domain` lookup of the world-state interface: `None` signals that
the domain does not exist. -/
def WorldStateView.domain (w : WorldStateView) (id : Name) : Option Domain :=
  mapLookup w.domains id

/-- Writing back through the mutable handle obtained from
`WorldStateView.domain`: the binding under the looked-up key is replaced. -/
def WorldStateView.setDomain (w : WorldStateView) (id : Name) (d : Domain) : WorldStateView :=
  { domains := mapInsert w.domains id d }

/-- Outcome of executing one instruction against a world state: `ok` and
`err` are the two sides of the Rust `Result<(), String>`, each carrying the
post-state of the `&mut WorldStateView`; `fatal` is an `expect` panic,
carrying the state at the moment of the abort. -/
inductive RunResult where
  | ok : WorldStateView → RunResult
  | err : String → WorldStateView → RunResult
  | fatal : String → WorldStateView → RunResult
deriving DecidableEq

/-- The world state carried by any outcome. -/
def RunResult.state : RunResult → WorldStateView
  | .ok w => w
  | .err _ w => w
  | .fatal _ w => w

/-- Modelled from the spec: the generic `Register<Destination, Object>`
instruction is declared outside the visible sources; it holds a
`destination_id` (a domain name, the only destination used by this core)
and an `object`. -/
structure Register (Object : Type) where
  object : Object
  destination_id : Name
deriving DecidableEq

/-- Modelled from the spec: `Register::new(object, destination_id)` builds
a pending attach-operation. -/
def Register.new {Object : Type} (object : Object) (destination_id : Name) :
    Register Object :=
  { object := object, destination_id := destination_id }

/-- Modelled from the spec: the rendering of an Account-Id inside the
duplicate-account message; the message must identify the conflicting Id. -/
def AccountId.render (id : AccountId) : String :=
  id.name ++ "@" ++ id.domain_name

/-- The duplicate-account error message of
`Register<Domain, Account>::execute`. -/
def accountExistsMsg (id : AccountId) : String :=
  "Domain already contains an account with an Id: " ++ id.render

/-- `Register<Domain, Account>::execute` from `domain.rs`: look the domain
up (recoverable error when absent), reject a duplicate Account-Id
(recoverable error naming the Id, no mutation), otherwise insert the
account keyed by its own id. -/
def registerAccountExecute (r : Register Account) (w : WorldStateView) : RunResult :=
  let account := r.object
  match w.domain r.destination_id with
  | none => .err "Failed to find domain." w
  | some domain =>
    if mapContains domain.accounts account.id then
      .err (accountExistsMsg account.id) w
    else
      .ok (w.setDomain r.destination_id
        { domain with accounts := mapInsert domain.accounts account.id account })

/-- `Register<Domain, Asset>::execute` from `domain.rs`: look the domain up
(recoverable error when absent), look the owning account up via
`asset.id.account_id()` (`expect` panic when absent), then insert the asset
into that account's asset map keyed by its own id, unconditionally
overwriting. -/
def registerAssetExecute (r : Register Asset) (w : WorldStateView) : RunResult :=
  let asset := r.object
  match w.domain r.destination_id with
  | none => .err "Failed to find domain." w
  | some domain =>
    match mapLookup domain.accounts asset.id.account_id with
    | none => .fatal "Failed to find account." w
    | some account =>
      .ok (w.setDomain r.destination_id
        { domain with
            accounts := mapInsert domain.accounts asset.id.account_id
              { account with assets := mapInsert account.assets asset.id asset } })

/-- `DomainInstruction` from `domain.rs`: the flattened union of the two
domain-related instructions. -/
inductive DomainInstruction where
  | RegisterAccount : Name → Account → DomainInstruction
  | RegisterAsset : Name → Asset → DomainInstruction
deriving DecidableEq

/-- `DomainInstruction::execute` from `domain.rs`: match on the variant and
delegate to the pair-specific executor, rebuilding the generic `Register`
from the carried data. -/
def DomainInstruction.execute : DomainInstruction → WorldStateView → RunResult
  | .RegisterAccount domain_name account, w =>
      registerAccountExecute (Register.new account domain_name) w
  | .RegisterAsset domain_name asset, w =>
      registerAssetExecute (Register.new asset domain_name) w

/-- Modelled from the spec: the umbrella `Instruction` union is declared
outside the visible sources; the variant used by this core wraps a
`DomainInstruction`. -/
inductive Instruction where
  | Domain : DomainInstruction → Instruction
deriving DecidableEq

/-- `From<Register<Domain, Account>> for Instruction` from `domain.rs`. -/
def instructionOfRegisterAccount (instruction : Register Account) : Instruction :=
  Instruction.Domain
    (DomainInstruction.RegisterAccount instruction.destination_id instruction.object)

/-- `From<Register<Domain, Asset>> for Instruction` from `domain.rs`. -/
def instructionOfRegisterAsset (instruction : Register Asset) : Instruction :=
  Instruction.Domain
    (DomainInstruction.RegisterAsset instruction.destination_id instruction.object)

/-- Modelled from the spec: the symmetric extraction of a
`Register<Domain, Account>` back out of the flattened union, required by
the round-trip contract of the conversion; no such function is in the
visible sources. -/
def registerAccountOfInstruction : Instruction → Option (Register Account)
  | .Domain (.RegisterAccount domain_name account) =>
      some (Register.new account domain_name)
  | _ => none

/-- Modelled from the spec: the symmetric extraction of a
`Register<Domain, Asset>` back out of the flattened union. -/
def registerAssetOfInstruction : Instruction → Option (Register Asset)
  | .Domain (.RegisterAsset domain_name asset) =>
      some (Register.new asset domain_name)
  | _ => none

/-- Sequential application of a list of instructions: the post-state of
each execution feeds the next one, and a fatal outcome aborts the run at
its state. -/
def runAll : List DomainInstruction → WorldStateView → WorldStateView
  | [], w => w
  | i :: rest, w =>
    match i.execute w with
    | .ok w2 => runAll rest w2
    | .err _ w2 => runAll rest w2
    | .fatal _ w2 => w2

/-- An account stores each of its assets under that asset's own id. -/
def accountWellKeyed (acc : Account) : Prop :=
  ∀ p ∈ acc.assets, p.2.id = p.1

/-- A domain stores each account under that account's own id, and every
stored account is itself well keyed; the domain-level asset registry stores
each asset under its own id. -/
def domainWellKeyed (d : Domain) : Prop :=
  (∀ p ∈ d.accounts, p.2.id = p.1 ∧ accountWellKeyed p.2) ∧
    ∀ p ∈ d.assets, p.2.id = p.1

/-- Every domain of the world state is well keyed. -/
def wsvWellKeyed (w : WorldStateView) : Prop :=
  ∀ p ∈ w.domains, domainWellKeyed p.2

/-- An instruction payload carries no mis-keyed map of its own: the account
object of a `RegisterAccount` stores its assets under their own ids. -/
def instructionWellKeyed : DomainInstruction → Prop
  | .RegisterAccount _ account => accountWellKeyed account
  | .RegisterAsset _ _ => True

instance (acc : Account) : Decidable (accountWellKeyed acc) := by
  unfold accountWellKeyed; infer_instance

instance (d : Domain) : Decidable (domainWellKeyed d) := by
  unfold domainWellKeyed; infer_instance

instance (w : WorldStateView) : Decidable (wsvWellKeyed w) := by
  unfold wsvWellKeyed; infer_instance

instance (i : DomainInstruction) : Decidable (instructionWellKeyed i) := by
  cases i <;> (unfold instructionWellKeyed; infer_instance)

/-- A sample Account-Id used in concrete executions. -/
def aliceId : AccountId := { name := "alice", domain_name := "wonderland" }

/-- A sample account with no holdings. -/
def alice : Account := { id := aliceId, assets := [] }

/-- A sample Asset-Id owned by `aliceId`. -/
def goldId : AssetId := { definition_name := "gold", account_id := aliceId }

/-- A sample asset with id `goldId`. -/
def gold : Asset := { id := goldId, value := 1 }

/-- A sample asset sharing `goldId` but with a different value. -/
def gold2 : Asset := { id := goldId, value := 2 }

/-- The empty sample domain. -/
def wonderlandEmpty : Domain := Domain.new "wonderland"

/-- The sample domain holding only `alice`. -/
def wonderlandWithAlice : Domain :=
  { name := "wonderland", accounts := [(aliceId, alice)], assets := [] }

/-- The sample account already holding `gold`. -/
def aliceRich : Account := { id := aliceId, assets := [(goldId, gold)] }

/-- The sample domain where `alice` already holds `gold`. -/
def wonderlandRich : Domain :=
  { name := "wonderland", accounts := [(aliceId, aliceRich)], assets := [] }

/-- World state with one empty domain. -/
def w0 : WorldStateView := { domains := [("wonderland", wonderlandEmpty)] }

/-- World state where `alice` is already registered. -/
def w1 : WorldStateView := { domains := [("wonderland", wonderlandWithAlice)] }

/-- World state where `alice` already holds `gold`. -/
def w2 : WorldStateView := { domains := [("wonderland", wonderlandRich)] }

/-- The world state reached from `w2` by re-registering `gold2`. -/
def w2After : WorldStateView :=
  { domains := [("wonderland",
      { name := "wonderland",
        accounts := [(aliceId, { id := aliceId, assets := [(goldId, gold2)] })],
        assets := [] })] }

/-- A second sample Asset-Id owned by `aliceId`. -/
def silverId : AssetId := { definition_name := "silver", account_id := aliceId }

/-- An account whose own asset map binds `gold` under `silverId`, a key
that is not the asset's id. -/
def misKeyedAccount : Account := { id := aliceId, assets := [(silverId, gold)] }

section MapLemmas

variable {κ α : Type} [DecidableEq κ]

theorem mapLookup_mapInsert_self (m : List (κ × α)) (k : κ) (v : α) :
    mapLookup (mapInsert m k v) k = some v := by
  induction m with
  | nil => simp [mapInsert, mapLookup]
  | cons p rest ih =>
    by_cases h : p.1 = k <;> simp [mapInsert, mapLookup, h, ih]

theorem mapLookup_mapInsert_ne (m : List (κ × α)) (k k2 : κ) (v : α) (h : k2 ≠ k) :
    mapLookup (mapInsert m k v) k2 = mapLookup m k2 := by
  induction m with
  | nil => simp [mapInsert, mapLookup, Ne.symm h]
  | cons p rest ih =>
    by_cases hp : p.1 = k
    · simp [mapInsert, mapLookup, hp, Ne.symm h]
    · simp [mapInsert, mapLookup, hp, ih]

theorem mapInsert_of_not_contains (m : List (κ × α)) (k : κ) (v : α)
    (h : mapContains m k = false) :
    mapInsert m k v = m ++ [(k, v)] := by
  induction m with
  | nil => simp [mapInsert]
  | cons p rest ih =>
    simp [mapContains] at h
    have h2 : mapContains rest k = false := by
      simp [mapContains]
      exact h.2
    simp [mapInsert, h.1, ih h2]

theorem length_mapInsert_of_contains (m : List (κ × α)) (k : κ) (v : α)
    (h : mapContains m k = true) :
    (mapInsert m k v).length = m.length := by
  induction m with
  | nil => simp [mapContains] at h
  | cons p rest ih =>
    by_cases hp : p.1 = k
    · simp [mapInsert, hp]
    · simp [mapContains, hp] at h
      have h2 : mapContains rest k = true := by
        simp [mapContains]
        exact h
      simp [mapInsert, hp, ih h2]

theorem mapLookup_eq_none_of_not_contains (m : List (κ × α)) (k : κ)
    (h : mapContains m k = false) : mapLookup m k = none := by
  induction m with
  | nil => simp [mapLookup]
  | cons p rest ih =>
    simp [mapContains] at h
    have h2 : mapContains rest k = false := by
      simp [mapContains]
      exact h.2
    simp [mapLookup, h.1, ih h2]

theorem mapLookup_mem (m : List (κ × α)) (k : κ) (v : α)
    (h : mapLookup m k = some v) : (k, v) ∈ m := by
  induction m with
  | nil => simp [mapLookup] at h
  | cons p rest ih =>
    by_cases hp : p.1 = k
    · simp [mapLookup, hp] at h
      rw [← hp, ← h]
      exact List.mem_cons_self _ _
    · simp [mapLookup, hp] at h
      exact List.mem_cons_of_mem p (ih h)

theorem mem_mapInsert (m : List (κ × α)) (k : κ) (v : α) (p : κ × α)
    (h : p ∈ mapInsert m k v) : p ∈ m ∨ p = (k, v) := by
  induction m with
  | nil => simp [mapInsert] at h; right; exact h
  | cons q rest ih =>
    by_cases hq : q.1 = k
    · simp [mapInsert, hq] at h
      rcases h with h | h
      · right; simpa using h
      · left; exact List.mem_cons_of_mem q h
    · simp [mapInsert, hq] at h
      rcases h with h | h
      · left; simp [h]
      · rcases ih h with h2 | h2
        · left; exact List.mem_cons_of_mem q h2
        · right; exact h2

end MapLemmas

/-- Claim C1: in a world state containing domain `d` under name `n`, when
the account's Id is already a key of `d`'s account map, execution returns
the `AlreadyExists` error naming the conflicting Id, and the post-state
carried by the error is exactly the pre-state: neither `d`'s account map
nor anything else changes. -/
theorem C1_duplicate_account_rejected
    (w : WorldStateView) (n : Name) (d : Domain) (a : Account)
    (hd : w.domain n = some d)
    (hdup : mapContains d.accounts a.id = true) :
    registerAccountExecute (Register.new a n) w = .err (accountExistsMsg a.id) w := by
  simp [registerAccountExecute, Register.new, hd, hdup]

/-- Witness for C1 at a concrete world where `alice` is already
registered. -/
theorem C1_duplicate_account_rejected_witness :
    registerAccountExecute (Register.new alice "wonderland") w1 =
      .err (accountExistsMsg aliceId) w1 :=
  C1_duplicate_account_rejected w1 "wonderland" wonderlandWithAlice alice
    (by decide) (by decide)

/-- Claim C2: in a world state containing domain `d` under name `n`, when
the account's Id is fresh, execution succeeds and the post-state differs
only in `d`'s account map, which gains exactly one new final entry binding
the account's Id to the account; `d`'s name and asset registry and every
other domain binding are unchanged. -/
theorem C2_fresh_account_inserted
    (w : WorldStateView) (n : Name) (d : Domain) (a : Account)
    (hd : w.domain n = some d)
    (hfresh : mapContains d.accounts a.id = false) :
    registerAccountExecute (Register.new a n) w =
      .ok (w.setDomain n { d with accounts := d.accounts ++ [(a.id, a)] }) ∧
    (w.setDomain n { d with accounts := d.accounts ++ [(a.id, a)] }).domain n =
      some { d with accounts := d.accounts ++ [(a.id, a)] } ∧
    ∀ n2, n2 ≠ n →
      (w.setDomain n { d with accounts := d.accounts ++ [(a.id, a)] }).domain n2 =
        w.domain n2 := by
  refine ⟨?_, ?_, ?_⟩
  · simp [registerAccountExecute, Register.new, hd, hfresh,
      mapInsert_of_not_contains d.accounts a.id a hfresh]
  · simp [WorldStateView.setDomain, WorldStateView.domain, mapLookup_mapInsert_self]
  · intro n2 hn2
    simp [WorldStateView.setDomain, WorldStateView.domain,
      mapLookup_mapInsert_ne w.domains n n2 _ hn2]

/-- Witness for C2: registering `alice` into the empty sample domain
produces exactly the one-entry account map. -/
theorem C2_fresh_account_inserted_witness :
    registerAccountExecute (Register.new alice "wonderland") w0 =
      .ok (w0.setDomain "wonderland"
        { wonderlandEmpty with
            accounts := wonderlandEmpty.accounts ++ [(alice.id, alice)] }) :=
  (C2_fresh_account_inserted w0 "wonderland" wonderlandEmpty alice
    (by decide) (by decide)).1

/-- Claim C3: when the named domain is absent from the world state, both
instruction variants fail with the domain-not-found error and the
post-state carried by the error is exactly the pre-state. -/
theorem C3_missing_domain_not_found
    (w : WorldStateView) (n : Name) (a : Account) (s : Asset)
    (habs : w.domain n = none) :
    DomainInstruction.execute (.RegisterAccount n a) w =
      .err "Failed to find domain." w ∧
    DomainInstruction.execute (.RegisterAsset n s) w =
      .err "Failed to find domain." w := by
  constructor <;>
    simp [DomainInstruction.execute, registerAccountExecute, registerAssetExecute,
      Register.new, habs]

/-- Witness for C3 at a domain name absent from the sample world. -/
theorem C3_missing_domain_not_found_witness :
    DomainInstruction.execute (.RegisterAccount "nowhere" alice) w0 =
      .err "Failed to find domain." w0 ∧
    DomainInstruction.execute (.RegisterAsset "nowhere" gold) w0 =
      .err "Failed to find domain." w0 :=
  C3_missing_domain_not_found w0 "nowhere" alice gold (by decide)

/-- Claim C4: when the owning account already holds an asset under the
registered asset's Id, asset registration still succeeds (no duplicate
check, unlike account registration), the stored value is replaced by the
new asset, the owner's asset map does not grow, and the bindings of all
other Asset-Ids are unchanged. -/
theorem C4_asset_overwrite_no_growth
    (w : WorldStateView) (n : Name) (d : Domain) (acc : Account) (s : Asset)
    (hd : w.domain n = some d)
    (hacc : mapLookup d.accounts s.id.account_id = some acc)
    (hold : mapContains acc.assets s.id = true) :
    registerAssetExecute (Register.new s n) w =
      .ok (w.setDomain n
        { d with
            accounts := mapInsert d.accounts s.id.account_id
              { acc with assets := mapInsert acc.assets s.id s } }) ∧
    mapLookup (mapInsert acc.assets s.id s) s.id = some s ∧
    (mapInsert acc.assets s.id s).length = acc.assets.length ∧
    ∀ k, k ≠ s.id →
      mapLookup (mapInsert acc.assets s.id s) k = mapLookup acc.assets k := by
  refine ⟨?_, mapLookup_mapInsert_self _ _ _,
    length_mapInsert_of_contains _ _ _ hold, ?_⟩
  · simp [registerAssetExecute, Register.new, hd, hacc]
  · intro k hk
    exact mapLookup_mapInsert_ne _ _ _ _ hk

/-- Witness for C4: re-registering `goldId` with a different value does not
grow `aliceRich`'s asset map. -/
theorem C4_asset_overwrite_no_growth_witness :
    (mapInsert aliceRich.assets gold2.id gold2).length = aliceRich.assets.length :=
  (C4_asset_overwrite_no_growth w2 "wonderland" wonderlandRich aliceRich gold2
    (by decide) (by decide) (by decide)).2.2.1

/-- Claim C5: with the domain present, registering an asset whose owning
account is absent from the domain's account map aborts fatally (an
`expect` panic carrying the untouched state, not a recoverable error
result); and whenever the owning account is present, the fatal branch is
unreachable and execution returns Ok. -/
theorem C5_missing_owner_fatal
    (w : WorldStateView) (n : Name) (d : Domain) (s : Asset)
    (hd : w.domain n = some d) :
    (mapLookup d.accounts s.id.account_id = none →
      registerAssetExecute (Register.new s n) w =
        .fatal "Failed to find account." w) ∧
    ∀ acc, mapLookup d.accounts s.id.account_id = some acc →
      ∃ w3, registerAssetExecute (Register.new s n) w = .ok w3 := by
  constructor
  · intro habs
    simp [registerAssetExecute, Register.new, hd, habs]
  · intro acc hacc
    refine ⟨w.setDomain n
      { d with
          accounts := mapInsert d.accounts s.id.account_id
            { acc with assets := mapInsert acc.assets s.id s } }, ?_⟩
    simp [registerAssetExecute, Register.new, hd, hacc]

/-- Witness for C5: registering `gold` into the empty sample domain, where
its owning account is absent, aborts fatally. -/
theorem C5_missing_owner_fatal_witness :
    registerAssetExecute (Register.new gold "wonderland") w0 =
      .fatal "Failed to find account." w0 :=
  (C5_missing_owner_fatal w0 "wonderland" wonderlandEmpty gold (by decide)).1
    (by decide)

/-- Claim C6: flattening a generic `Register` carries `(destination_id,
object)` into the corresponding `Instruction` variant unchanged, and the
symmetric extraction recovers a `Register` equal to the original, for both
the Account and the Asset instantiation. -/
theorem C6_conversion_round_trip (ra : Register Account) (rs : Register Asset) :
    instructionOfRegisterAccount ra =
      Instruction.Domain
        (DomainInstruction.RegisterAccount ra.destination_id ra.object) ∧
    registerAccountOfInstruction (instructionOfRegisterAccount ra) = some ra ∧
    instructionOfRegisterAsset rs =
      Instruction.Domain
        (DomainInstruction.RegisterAsset rs.destination_id rs.object) ∧
    registerAssetOfInstruction (instructionOfRegisterAsset rs) = some rs :=
  ⟨rfl, rfl, rfl, rfl⟩

/-- Claim C7: the flattened dispatcher produces, for each variant, exactly
the outcome and post-state of the pair-specific executor applied to the
rebuilt generic `Register`. -/
theorem C7_dispatch_delegates
    (n : Name) (a : Account) (s : Asset) (w : WorldStateView) :
    DomainInstruction.execute (.RegisterAccount n a) w =
      registerAccountExecute (Register.new a n) w ∧
    DomainInstruction.execute (.RegisterAsset n s) w =
      registerAssetExecute (Register.new s n) w :=
  ⟨rfl, rfl⟩

/-- Claim C8: `Domain::new` yields a domain with the given name and empty
account and asset maps. -/
theorem C8_new_domain_empty (n : Name) :
    (Domain.new n).name = n ∧ (Domain.new n).accounts = [] ∧
      (Domain.new n).assets = [] :=
  ⟨rfl, rfl, rfl⟩

/-- Claim C9: a successful asset registration leaves the domain-level asset
registry, the domain name and every account binding other than the owning
account's unchanged; a successful account registration leaves the
domain-level asset registry, the domain name and every previously stored
account binding (hence every existing asset map) unchanged. -/
theorem C9_frame_conditions
    (w : WorldStateView) (n : Name) (d : Domain) (a : Account) (s : Asset)
    (hd : w.domain n = some d) :
    (∀ w3, registerAssetExecute (Register.new s n) w = .ok w3 →
      ∃ d3, w3.domain n = some d3 ∧ d3.assets = d.assets ∧ d3.name = d.name ∧
        ∀ k, k ≠ s.id.account_id →
          mapLookup d3.accounts k = mapLookup d.accounts k) ∧
    ∀ w3, registerAccountExecute (Register.new a n) w = .ok w3 →
      ∃ d3, w3.domain n = some d3 ∧ d3.assets = d.assets ∧ d3.name = d.name ∧
        ∀ k acc, mapLookup d.accounts k = some acc →
          mapLookup d3.accounts k = some acc := by
  constructor
  · intro w3 hok
    cases hacc : mapLookup d.accounts s.id.account_id with
    | none =>
      simp [registerAssetExecute, Register.new, hd, hacc] at hok
    | some acc =>
      simp [registerAssetExecute, Register.new, hd, hacc] at hok
      subst hok
      refine ⟨{ d with
          accounts := mapInsert d.accounts s.id.account_id
            { acc with assets := mapInsert acc.assets s.id s } },
        ?_, rfl, rfl, ?_⟩
      · exact mapLookup_mapInsert_self _ _ _
      · intro k hk
        exact mapLookup_mapInsert_ne _ _ _ _ hk
  · intro w3 hok
    cases hc : mapContains d.accounts a.id with
    | true =>
      simp [registerAccountExecute, Register.new, hd, hc] at hok
    | false =>
      simp [registerAccountExecute, Register.new, hd, hc] at hok
      subst hok
      refine ⟨{ d with accounts := mapInsert d.accounts a.id a }, ?_, rfl, rfl, ?_⟩
      · exact mapLookup_mapInsert_self _ _ _
      · intro k acc hkacc
        by_cases hk : k = a.id
        · rw [hk] at hkacc
          rw [mapLookup_eq_none_of_not_contains d.accounts a.id hc] at hkacc
          exact absurd hkacc (by simp)
        · rw [mapLookup_mapInsert_ne _ _ _ _ hk]
          exact hkacc

/-- Witness for C9: the concrete overwrite run from `w2` leaves the sample
domain's asset registry and name unchanged. -/
theorem C9_frame_conditions_witness :
    ∃ d3, w2After.domain "wonderland" = some d3 ∧
      d3.assets = wonderlandRich.assets ∧ d3.name = wonderlandRich.name ∧
      ∀ k, k ≠ gold2.id.account_id →
        mapLookup d3.accounts k = mapLookup wonderlandRich.accounts k :=
  (C9_frame_conditions w2 "wonderland" wonderlandRich alice gold2 (by decide)).1
    w2After (by decide)

/-- Counterexample to claim C10 as stated: account registration inserts the
payload account as given, so registering an account whose own asset map
binds an asset under a key different from that asset's id yields a state
where an asset is not stored under its own id, although the initial state
was well keyed. -/
theorem C10_counterexample :
    wsvWellKeyed w0 ∧
    ¬ wsvWellKeyed
      (runAll [DomainInstruction.RegisterAccount "wonderland" misKeyedAccount] w0) := by
  constructor
  · decide
  · decide

theorem wsvWellKeyed_setDomain (w : WorldStateView) (n : Name) (d : Domain)
    (hw : wsvWellKeyed w) (hd : domainWellKeyed d) :
    wsvWellKeyed (w.setDomain n d) := by
  intro p hp
  rcases mem_mapInsert _ _ _ _ hp with hmem | heq
  · exact hw p hmem
  · rw [heq]
    exact hd

theorem domainWellKeyed_insertAccount (d : Domain) (a : Account)
    (hd : domainWellKeyed d) (ha : accountWellKeyed a) :
    domainWellKeyed { d with accounts := mapInsert d.accounts a.id a } := by
  constructor
  · intro p hp
    rcases mem_mapInsert _ _ _ _ hp with hmem | heq
    · exact hd.1 p hmem
    · rw [heq]
      exact ⟨rfl, ha⟩
  · intro p hp
    exact hd.2 p hp

theorem domainWellKeyed_insertAsset (d : Domain) (acc : Account) (s : Asset)
    (hd : domainWellKeyed d)
    (hacc : mapLookup d.accounts s.id.account_id = some acc) :
    domainWellKeyed
      { d with
          accounts := mapInsert d.accounts s.id.account_id
            { acc with assets := mapInsert acc.assets s.id s } } := by
  have hentry := hd.1 _ (mapLookup_mem _ _ _ hacc)
  constructor
  · intro p hp
    rcases mem_mapInsert _ _ _ _ hp with hmem | heq
    · exact hd.1 p hmem
    · rw [heq]
      refine ⟨hentry.1, ?_⟩
      intro q hq
      rcases mem_mapInsert _ _ _ _ hq with hmem2 | heq2
      · exact hentry.2 q hmem2
      · rw [heq2]
  · intro p hp
    exact hd.2 p hp

theorem execute_preserves_wellKeyed (i : DomainInstruction) (w : WorldStateView)
    (hw : wsvWellKeyed w) (hi : instructionWellKeyed i) :
    wsvWellKeyed (i.execute w).state := by
  cases i with
  | RegisterAccount n a =>
    cases hd : w.domain n with
    | none =>
      simpa [DomainInstruction.execute, registerAccountExecute, Register.new, hd,
        RunResult.state] using hw
    | some d =>
      cases hc : mapContains d.accounts a.id with
      | true =>
        simpa [DomainInstruction.execute, registerAccountExecute, Register.new, hd,
          hc, RunResult.state] using hw
      | false =>
        have hdwk : domainWellKeyed d := hw _ (mapLookup_mem _ _ _ hd)
        have hred : (DomainInstruction.execute (.RegisterAccount n a) w).state =
            w.setDomain n { d with accounts := mapInsert d.accounts a.id a } := by
          simp [DomainInstruction.execute, registerAccountExecute, Register.new, hd,
            hc, RunResult.state]
        rw [hred]
        exact wsvWellKeyed_setDomain _ _ _ hw
          (domainWellKeyed_insertAccount d a hdwk hi)
  | RegisterAsset n s =>
    cases hd : w.domain n with
    | none =>
      simpa [DomainInstruction.execute, registerAssetExecute, Register.new, hd,
        RunResult.state] using hw
    | some d =>
      cases hacc : mapLookup d.accounts s.id.account_id with
      | none =>
        simpa [DomainInstruction.execute, registerAssetExecute, Register.new, hd,
          hacc, RunResult.state] using hw
      | some acc =>
        have hdwk : domainWellKeyed d := hw _ (mapLookup_mem _ _ _ hd)
        have hred : (DomainInstruction.execute (.RegisterAsset n s) w).state =
            w.setDomain n
              { d with
                  accounts := mapInsert d.accounts s.id.account_id
                    { acc with assets := mapInsert acc.assets s.id s } } := by
          simp [DomainInstruction.execute, registerAssetExecute, Register.new, hd,
            hacc, RunResult.state]
        rw [hred]
        exact wsvWellKeyed_setDomain _ _ _ hw
          (domainWellKeyed_insertAsset d acc s hdwk hacc)

/-- Claim C10 (amended): provided every `RegisterAccount` payload in the
sequence carries an account whose own asset map is keyed by each asset's
id, executing any sequence of instructions from a well-keyed world state
yields a well-keyed world state: every account is stored under its own id
and every asset in an account's asset map under its own id. -/
theorem C10_wellKeyed_preserved
    (l : List DomainInstruction) (w : WorldStateView)
    (hw : wsvWellKeyed w) (hl : ∀ i ∈ l, instructionWellKeyed i) :
    wsvWellKeyed (runAll l w) := by
  induction l generalizing w with
  | nil => simpa [runAll] using hw
  | cons i rest ih =>
    have hstep := execute_preserves_wellKeyed i w hw (hl i (List.mem_cons_self i rest))
    have hrest : ∀ j ∈ rest, instructionWellKeyed j := fun j hj =>
      hl j (List.mem_cons_of_mem i hj)
    cases hres : i.execute w with
    | ok w3 =>
      rw [hres] at hstep
      simpa [runAll, hres] using ih w3 hstep hrest
    | err msg w3 =>
      rw [hres] at hstep
      simpa [runAll, hres] using ih w3 hstep hrest
    | fatal msg w3 =>
      rw [hres] at hstep
      simpa [runAll, hres] using hstep

/-- Witness for the amended C10 on a concrete two-instruction run. -/
theorem C10_wellKeyed_preserved_witness :
    wsvWellKeyed (runAll [DomainInstruction.RegisterAccount "wonderland" alice,
      DomainInstruction.RegisterAsset "wonderland" gold] w0) :=
  C10_wellKeyed_preserved
    [DomainInstruction.RegisterAccount "wonderland" alice,
      DomainInstruction.RegisterAsset "wonderland" gold] w0
    (by decide) (by decide)

end Iroha
